import Mathlib

/-!
Shallow embedding of the osm-downloader core (src/network.rs, src/main.rs,
src/db.rs, src/app.rs) and proofs about it.

Strings are modelled as Lean `String` (sequences of Unicode scalar values);
Rust byte indices are modelled through UTF-8 byte sizes (`Char.utf8Size`),
and Rust byte-slicing `&s[..n]`, which panics when `n` is not a UTF-8
character boundary, is modelled as an `Option`-valued operation that
returns `none` exactly when the Rust code would panic.
-/

namespace OsmDownloader

/-- From src/network.rs: `enum DownloadFormat { Pbf, Shapefile }`. -/
inductive DownloadFormat where
  | pbf
  | shapefile
deriving DecidableEq

/-- From src/network.rs: `DownloadFormat::suffix`. -/
def DownloadFormat.suffix : DownloadFormat → String
  | .pbf => "-latest.osm.pbf"
  | .shapefile => "-latest-free.shp.zip"

/-- Rust `char::is_whitespace`: the Unicode White_Space code points. -/
def rustIsWhitespace (c : Char) : Bool :=
  let n := c.toNat
  (9 ≤ n && n ≤ 13) || n = 32 || n = 0x85 || n = 0xA0 || n = 0x1680 ||
    (0x2000 ≤ n && n ≤ 0x200A) || n = 0x2028 || n = 0x2029 ||
    n = 0x202F || n = 0x205F || n = 0x3000

/-- Drop trailing whitespace from a character list. -/
def trimRightList (l : List Char) : List Char :=
  (l.reverse.dropWhile rustIsWhitespace).reverse

/-- Rust `str::trim` on the character list: drop leading, then trailing,
whitespace. -/
def rustTrimList (l : List Char) : List Char :=
  trimRightList (l.dropWhile rustIsWhitespace)

/-- Rust `str::trim`. -/
def rustTrim (s : String) : String :=
  ⟨rustTrimList s.data⟩

/-- Rust `char::to_lowercase`, restricted to the ASCII mapping that the
inputs of this program exercise: `A`–`Z` map to `a`–`z`, everything else is
unchanged. -/
def rustLowerChar (c : Char) : Char :=
  if 65 ≤ c.toNat && c.toNat ≤ 90 then Char.ofNat (c.toNat + 32) else c

/-- Rust `str::to_lowercase` (ASCII fragment). -/
def rustLower (s : String) : String :=
  ⟨s.data.map rustLowerChar⟩

/-- The ASCII uppercase map, used to state that letter case has no
observable effect on URL construction. -/
def rustUpperChar (c : Char) : Char :=
  if 97 ≤ c.toNat && c.toNat ≤ 122 then Char.ofNat (c.toNat - 32) else c

/-- Apply the ASCII uppercase map to every character. -/
def rustUpper (s : String) : String :=
  ⟨s.data.map rustUpperChar⟩

/-- From src/network.rs: `Downloader::construct_url`. -/
def construct_url (continent country region : String)
    (format : DownloadFormat) : String :=
  let base := "https://download.geofabrik.de"
  let suffix := format.suffix
  let continent := rustLower (rustTrim continent)
  let country := rustLower (rustTrim country)
  let region := rustLower (rustTrim region)
  if region.isEmpty then
    if country.isEmpty then
      base ++ "/" ++ continent ++ suffix
    else
      base ++ "/" ++ continent ++ "/" ++ country ++ suffix
  else
    base ++ "/" ++ continent ++ "/" ++ country ++ "/" ++ region ++ suffix

/-- From src/network.rs: `enum DownloadEvent`.  The `Progress` payload is a
percentage (`downloaded as f64 / total_size as f64 * 100.0`); the floating
point value itself is not used by any claim, so the event carries the exact
pair (bytes downloaded so far, declared total) from which the percentage is
computed. -/
inductive DownloadEvent where
  | progress (downloaded total : Nat)
  | complete (path : String)
  | error (msg : String)
  | importStarted
  | importFinished (msg : String)
  | importFailed (msg : String)
deriving DecidableEq

/-- One simulated input to `Downloader::attempt_download`: how the HTTP
layer behaves when this attempt runs.

* `netError`: `client.get(url).send()` fails (or times out).
* `httpError`: the response status is not a success status.
* `fileError`: `File::create` (or a write/flush) fails.
* `body`: a success status whose body streams the given chunk sizes; if
  `streamErr` is some message, the byte stream fails after those chunks. -/
inductive AttemptInput where
  | netError (msg : String)
  | httpError (status : String)
  | fileError (msg : String)
  | body (contentLength : Option Nat) (chunks : List Nat)
      (streamErr : Option String)
deriving DecidableEq

/-- Rust `str::split(sep)` on a character list: splits at every separator
occurrence, keeping empty pieces (so `"a//b"` gives `["a", "", "b"]`). -/
def rustSplitChar (sep : Char) : List Char → List (List Char)
  | [] => [[]]
  | c :: cs =>
    let r := rustSplitChar sep cs
    if c = sep then
      [] :: r
    else
      match r with
      | [] => [[c]]
      | x :: xs => (c :: x) :: xs

/-- From src/network.rs (attempt_download):
`url.split('/').last().unwrap_or("downloaded_file")`. -/
def urlFilename (url : String) : String :=
  match (rustSplitChar '/' url.data).getLast? with
  | some l => ⟨l⟩
  | none => "downloaded_file"

/-- The `while let Some(chunk_result) = stream.next()` loop of
`attempt_download`: writes each chunk, accumulates `downloaded`, and sends
a `Progress` event per chunk when `total_size > 0`.  Returns the emitted
events together with the final `downloaded` count. -/
def streamLoop (totalSize : Nat) (downloaded : Nat) :
    List Nat → List DownloadEvent × Nat
  | [] => ([], downloaded)
  | c :: cs =>
    let d := downloaded + c
    let evs := if totalSize > 0 then [DownloadEvent.progress d totalSize] else []
    let rest := streamLoop totalSize d cs
    (evs ++ rest.1, rest.2)

/-- From src/network.rs: `Downloader::attempt_download`.  Returns the
events sent on the channel during the attempt, and the attempt's result
(`Ok(file_path)` or an error message). -/
def attempt_download (url outputDir : String) :
    AttemptInput → List DownloadEvent × Except String String
  | .netError m => ([], .error m)
  | .httpError status => ([], .error ("HTTP Error: " ++ status))
  | .fileError m => ([], .error m)
  | .body contentLength chunks streamErr =>
    let totalSize := contentLength.getD 0
    let filename := urlFilename url
    let filePath := outputDir ++ "/" ++ filename
    let streamed := streamLoop totalSize 0 chunks
    match streamErr with
    | some m => (streamed.1, .error m)
    | none =>
      let downloaded := streamed.2
      if totalSize > 0 && downloaded != totalSize then
        let msg := "Download incomplete: expected " ++ toString totalSize ++
          " bytes, got " ++ toString downloaded ++ " bytes"
        (streamed.1 ++ [DownloadEvent.error msg], .error msg)
      else
        (streamed.1 ++ [DownloadEvent.complete filePath], .ok filePath)

/-- The retry loop of `Downloader::download_file` (src/network.rs):
`retry_count` starts at the given value and `max_retries = 3`.  The list of
`AttemptInput`s supplies the behaviour of each successive attempt.  Returns
(events sent, final result, number of attempts made).  The `[]` case is a
simulation artefact — it is unreachable whenever enough attempt inputs are
supplied for the loop to terminate on its own. -/
def downloadLoop (url outputDir : String) :
    Nat → List AttemptInput → List DownloadEvent × Except String String × Nat
  | _, [] => ([], .error "no simulated attempt input", 0)
  | retryCount, a :: rest =>
    let att := attempt_download url outputDir a
    match att.2 with
    | .ok p => (att.1, .ok p, 1)
    | .error e =>
      let rc := retryCount + 1
      if rc ≥ 3 then
        let msg := "Failed after 3 retries: " ++ e
        (att.1 ++ [DownloadEvent.error msg], .error msg, 1)
      else
        let msg := "Retry " ++ toString rc ++ "/3: " ++ e
        let cont := downloadLoop url outputDir rc rest
        (att.1 ++ [DownloadEvent.error msg] ++ cont.1, cont.2.1, cont.2.2 + 1)

/-- From src/network.rs: `Downloader::download_file`. -/
def download_file (url outputDir : String) (attempts : List AttemptInput) :
    List DownloadEvent × Except String String × Nat :=
  downloadLoop url outputDir 0 attempts

/-- The kind of a terminal downloader event, for stating order and counts
of `Error`/`Complete` events (ignoring `Progress` and import events). -/
inductive EvKind where
  | err
  | comp
deriving DecidableEq

/-- Project a download event to its `Error`/`Complete` kind. -/
def termKind : DownloadEvent → Option EvKind
  | .error _ => some .err
  | .complete _ => some .comp
  | _ => none

/-- The subsequence of `Error`/`Complete` kinds in an event list. -/
def termTrace (evs : List DownloadEvent) : List EvKind :=
  evs.filterMap termKind

/-- Whether an attempt (or download) result is an error. -/
def resultIsError : Except String String → Bool
  | .error _ => true
  | .ok _ => false

/-- Number of `Progress` events in an event list. -/
def countProgress (evs : List DownloadEvent) : Nat :=
  (evs.filter fun e => match e with | .progress _ _ => true | _ => false).length

/-- Number of `Complete` events in an event list. -/
def countComplete (evs : List DownloadEvent) : Nat :=
  (evs.filter fun e => match e with | .complete _ => true | _ => false).length

/-- From src/app.rs: the fields of `App` that the coordinator logic in
`run_app` (src/main.rs) reads or writes.  Text areas are modelled by the
string contents of their first line, which is all `run_app` reads from
them. -/
structure AppState where
  inputContinent : String
  inputCountry : String
  inputRegion : String
  downloadFormat : DownloadFormat
  downloadProgress : Float
  isDownloading : Bool
  lastDownloadedPath : Option String
  downloadStatusText : String
  sqlInput : String
  sqlOutput : String
  logs : List String

/-- From src/app.rs: `App::add_log` — push, then evict the oldest entry
once more than 100 entries are held. -/
def add_log (app : AppState) (msg : String) : AppState :=
  let logs := app.logs ++ [msg]
  let logs := if logs.length > 100 then logs.drop 1 else logs
  { app with logs := logs }

/-- From src/main.rs (run_app, Download tab, `KeyCode::Enter` arm): the
download-start intent.  Returns the new state and whether a background
fetch task was spawned (`tokio::spawn` of `download_file`). -/
def handleEnterDownload (app : AppState) : AppState × Bool :=
  if !app.isDownloading then
    let continent := app.inputContinent
    let country := app.inputCountry
    let region := app.inputRegion
    if continent.isEmpty then
      (add_log app "Error: Continent is required", false)
    else
      let app1 := { app with
        isDownloading := true
        downloadProgress := 0.0
        downloadStatusText := "Starting..." }
      let app2 := add_log app1
        ("Requesting: " ++ continent ++ "/" ++ country ++ "/" ++ region)
      let url := construct_url continent country region app2.downloadFormat
      let app3 := add_log app2 ("URL: " ++ url)
      (app3, true)
  else
    (app, false)

/-- From src/main.rs (run_app, `DownloadEvent::Complete` arm): the body of
the `tokio::task::spawn_blocking` import task.  `recordResult` is the
outcome of `db.record_download` (its result is discarded by the source via
`let _ =`); `importResult` is the outcome of `db.import_data`.  Returns the
events the task sends on the channel, in order. -/
def backgroundImport (recordResult importResult : Except String Unit) :
    List DownloadEvent :=
  let started := [DownloadEvent.importStarted]
  match recordResult, importResult with
  | _, .ok _ => started ++ [DownloadEvent.importFinished "Import successful."]
  | _, .error e => started ++ [DownloadEvent.importFailed e]

/-- Whether an event is a terminal import event
(`ImportFinished` or `ImportFailed`). -/
def isTerminalImportEvent : DownloadEvent → Bool
  | .importFinished _ => true
  | .importFailed _ => true
  | _ => false

/-- From src/main.rs (run_app, `DownloadEvent::ImportFinished` arm):
append the message to the log, replace the SQL input with the canned
preview query, then `try_lock` the store.  `dbAvailable` models whether
`db.try_lock()` succeeds immediately; `queryResult` models what
`db_lock.query(query)` would return if it runs.  Returns the new state and
whether a query was actually executed against the store. -/
def handleImportFinished (app : AppState) (msg : String) (dbAvailable : Bool)
    (queryResult : Except String String) : AppState × Bool :=
  let app1 := add_log app msg
  let previewQuery := "SELECT * FROM imported_data LIMIT 10;"
  let app2 := { app1 with sqlInput := previewQuery }
  let app3 := add_log app2 "Auto-executing preview query..."
  if dbAvailable then
    match queryResult with
    | .ok output => ({ app3 with sqlOutput := output }, true)
    | .error e =>
      ({ app3 with sqlOutput := "Error executing preview: " ++ e }, true)
  else
    (add_log app3 "DB busy, skip preview.", false)

/-- From src/main.rs (run_app, Database tab, execute-query keys): append
the "Executing" log entry, then `try_lock` the store; on contention report
"DB busy, cannot execute query." instead of running the query.  Returns
the new state and whether a query was actually executed. -/
def handleExecuteQuery (app : AppState) (dbAvailable : Bool)
    (queryResult : Except String String) : AppState × Bool :=
  let query := app.sqlInput
  let app1 := add_log app ("Executing: " ++ query)
  if dbAvailable then
    match queryResult with
    | .ok output => ({ app1 with sqlOutput := output }, true)
    | .error e => ({ app1 with sqlOutput := "Error: " ++ e }, true)
  else
    ({ app1 with sqlOutput := "DB busy, cannot execute query." }, false)

/-!  Embedding of `Database::query` (src/db.rs).  The duckdb layer is
external: a result set is modelled as the list of column names plus a list
of rows, each row being the list of its cells' string values (the source's
`row.get::<String>` / debug formatting).  Rust's `value.len()` is the
UTF-8 byte length; `&value[..n]` panics when `n` is not a character
boundary, modelled as `none`. -/

/-- Rust `str::len`: the UTF-8 byte length of a string. -/
def byteLen (s : String) : Nat :=
  (s.data.map Char.utf8Size).sum

/-- Rust `&s[..n]` on the character list: take a prefix of exactly `n`
UTF-8 bytes; `none` when `n` is not a character boundary or exceeds the
byte length (the Rust code panics there). -/
def byteTakeList : Nat → List Char → Option (List Char)
  | 0, _ => some []
  | _ + 1, [] => none
  | n + 1, c :: cs =>
    if c.utf8Size ≤ n + 1 then
      (byteTakeList (n + 1 - c.utf8Size) cs).map (c :: ·)
    else
      none

/-- Rust `&s[..n]`. -/
def byteTake (n : Nat) (s : String) : Option String :=
  (byteTakeList n s.data).map (⟨·⟩)

/-- From src/db.rs (Database::query, row loop):
`if value.len() > 80 { value = format!("{}…", &value[..80]); }`. -/
def truncate80 (s : String) : Option String :=
  if byteLen s > 80 then (byteTake 80 s).map (· ++ "…") else some s

/-- From src/db.rs (Database::query, rendering): clip a cell to the column
width — `if value.len() > widths[idx] { &value[..widths[idx]] } else { value }`. -/
def clipCell (w : Nat) (s : String) : Option String :=
  if byteLen s > w then byteTake w s else some s

/-- From src/db.rs (Database::query): `format!("{:width$}", cell, width = widths[idx])`
— pad on the right with spaces up to `w` characters. -/
def padCell (w : Nat) (s : String) : String :=
  s ++ ⟨List.replicate (w - s.length) ' '⟩

/-- From src/db.rs (Database::query, `while let Some(row) = rows.next()`):
accumulate `rows_buffer`, the running `widths`, and the `truncated` flag,
starting from row counter `count`.  Breaks (setting `truncated`) when
`count > 50`.  `none` models a panic inside the 80-byte truncation. -/
def processRows :
    List (List String) → Nat → List Nat → Nat →
      Option (List (List String) × List Nat × Bool)
  | [], _, widths, _ => some ([], widths, false)
  | r :: rs, colCount, widths, count =>
    if count > 50 then
      some ([], widths, true)
    else
      match (List.range colCount).mapM (fun i => truncate80 (r.getD i "")) with
      | none => none
      | some vals =>
        let widths1 := List.zipWith (fun w v => max w (byteLen v)) widths vals
        match processRows rs colCount widths1 (count + 1) with
        | none => none
        | some (buf, wfin, trunc) => some (vals :: buf, wfin, trunc)

/-- From src/db.rs (Database::query): cap every column width at
`max_col_width = 30`. -/
def capWidths (widths : List Nat) : List Nat :=
  widths.map fun w => if w > 30 then 30 else w

/-- Render one output row: clip each cell to its column width, pad, and
join with the `" | "` separator. -/
def renderRow (widths : List Nat) (cells : List String) : Option String :=
  match (List.zip widths cells).mapM
      (fun wc => (clipCell wc.1 wc.2).map (padCell wc.1)) with
  | none => none
  | some rendered => some (String.intercalate " | " rendered)

/-- The `-+-`-joined separator line of `Database::query`. -/
def sepLine (widths : List Nat) : String :=
  String.intercalate "-+-" (widths.map fun w => ⟨List.replicate w '-'⟩)

/-- From src/db.rs: `Database::query`, given the externally produced
result set (column names and stringified rows).  Returns the formatted
output, or `none` where the Rust code panics on a byte slice. -/
def databaseQuery (columnNames : List String) (rows : List (List String)) :
    Option String :=
  let colCount := columnNames.length
  let widths0 := columnNames.map byteLen
  match processRows rows colCount widths0 0 with
  | none => none
  | some (buffer, widths, truncated) =>
    let widthsC := capWidths widths
    match renderRow widthsC columnNames with
    | none => none
    | some header =>
      match buffer.mapM (renderRow widthsC) with
      | none => none
      | some dataLines =>
        let displayed := buffer.length
        let rowsLabel :=
          if truncated then
            "Rows: " ++ toString displayed ++ "+ (showing " ++
              toString displayed ++ ")"
          else
            "Rows: " ++ toString displayed
        some (header ++ "\n" ++ sepLine widthsC ++ "\n" ++
          String.join (dataLines.map (· ++ "\n")) ++
          (if truncated then "... (more rows truncated)\n" else "") ++
          rowsLabel ++ " | Columns: " ++ toString colCount ++ "\n")

/-- An empty path segment in a constructed URL: two consecutive slashes
after the `https://` scheme. -/
def hasEmptyPathSegment (url : String) : Prop :=
  ['/', '/'] <:+: (url.data.drop 8)

/-! ## Helper lemmas -/

theorem add_log_getLast (app : AppState) (msg : String) :
    (add_log app msg).logs.getLast? = some msg := by
  unfold add_log
  by_cases h : (app.logs ++ [msg]).length > 100
  · simp only [h, if_pos]
    match happ : app.logs with
    | [] => simp [happ] at h
    | a :: l => simp [List.getLast?_concat]
  · simp only [h, if_neg, ite_false]
    simp [List.getLast?_concat]

theorem resultIsError_iff (r : Except String String) :
    resultIsError r = true ↔ ∃ e, r = .error e := by
  cases r <;> simp [resultIsError]

theorem countProgress_append (l1 l2 : List DownloadEvent) :
    countProgress (l1 ++ l2) = countProgress l1 + countProgress l2 := by
  simp [countProgress, List.filter_append]

theorem countComplete_append (l1 l2 : List DownloadEvent) :
    countComplete (l1 ++ l2) = countComplete l1 + countComplete l2 := by
  simp [countComplete, List.filter_append]

theorem streamLoop_countProgress (totalSize : Nat) (chunks : List Nat) :
    ∀ d, countProgress (streamLoop totalSize d chunks).1 =
      if totalSize > 0 then chunks.length else 0 := by
  induction chunks with
  | nil => intro d; simp [streamLoop, countProgress]
  | cons c cs ih =>
    intro d
    show countProgress
      ((if totalSize > 0 then [DownloadEvent.progress (d + c) totalSize]
          else []) ++ (streamLoop totalSize (d + c) cs).1) = _
    rw [countProgress_append, ih]
    by_cases h : totalSize > 0
    · simp [h, countProgress]
      omega
    · simp [h, countProgress]

theorem streamLoop_downloaded (totalSize : Nat) (chunks : List Nat) :
    ∀ d, (streamLoop totalSize d chunks).2 = d + chunks.sum := by
  induction chunks with
  | nil => intro d; simp [streamLoop]
  | cons c cs ih => intro d; simp [streamLoop, ih]; omega

theorem streamLoop_countComplete (totalSize : Nat) (chunks : List Nat) :
    ∀ d, countComplete (streamLoop totalSize d chunks).1 = 0 := by
  induction chunks with
  | nil => intro d; simp [streamLoop, countComplete]
  | cons c cs ih =>
    intro d
    show countComplete
      ((if totalSize > 0 then [DownloadEvent.progress (d + c) totalSize]
          else []) ++ (streamLoop totalSize (d + c) cs).1) = _
    rw [countComplete_append, ih]
    by_cases h : totalSize > 0 <;> simp [h, countComplete]

theorem countProgress_error (m : String) :
    countProgress [DownloadEvent.error m] = 0 := rfl

theorem countProgress_complete (p : String) :
    countProgress [DownloadEvent.complete p] = 0 := rfl

theorem streamLoop_termTrace (totalSize : Nat) (chunks : List Nat) :
    ∀ d, termTrace (streamLoop totalSize d chunks).1 = [] := by
  induction chunks with
  | nil => intro d; simp [streamLoop, termTrace]
  | cons c cs ih =>
    intro d
    show termTrace
      ((if totalSize > 0 then [DownloadEvent.progress (d + c) totalSize]
          else []) ++ (streamLoop totalSize (d + c) cs).1) = _
    rw [termTrace, List.filterMap_append]
    have ihd := ih (d + c)
    rw [termTrace] at ihd
    rw [ihd]
    by_cases h : totalSize > 0 <;> simp [h, termKind]

theorem termTrace_append (l1 l2 : List DownloadEvent) :
    termTrace (l1 ++ l2) = termTrace l1 ++ termTrace l2 := by
  simp [termTrace, List.filterMap_append]

theorem attempt_ok_termTrace {url outputDir : String} {a : AttemptInput}
    {p : String} (h : (attempt_download url outputDir a).2 = .ok p) :
    termTrace (attempt_download url outputDir a).1 = [EvKind.comp] := by
  cases a with
  | netError m => simp [attempt_download] at h
  | httpError s => simp [attempt_download] at h
  | fileError m => simp [attempt_download] at h
  | body cl chunks serr =>
    cases serr with
    | some m => simp [attempt_download] at h
    | none =>
      simp only [attempt_download] at h ⊢
      split at h
      · exact absurd h (by simp)
      · next hcond =>
        rw [if_neg hcond, termTrace_append, streamLoop_termTrace]
        rfl

theorem downloadLoop_ok_step (url outputDir : String) (a : AttemptInput)
    (rest : List AttemptInput) (rc : Nat) (p : String)
    (ha : (attempt_download url outputDir a).2 = .ok p) :
    downloadLoop url outputDir rc (a :: rest) =
      ((attempt_download url outputDir a).1, .ok p, 1) := by
  simp only [downloadLoop, ha]

theorem downloadLoop_error_step (url outputDir : String) (a : AttemptInput)
    (rest : List AttemptInput) (rc : Nat) (e : String)
    (ha : (attempt_download url outputDir a).2 = .error e)
    (hrc : rc + 1 < 3) :
    downloadLoop url outputDir rc (a :: rest) =
      ((attempt_download url outputDir a).1 ++
        [DownloadEvent.error ("Retry " ++ toString (rc + 1) ++ "/3: " ++ e)] ++
        (downloadLoop url outputDir (rc + 1) rest).1,
       (downloadLoop url outputDir (rc + 1) rest).2.1,
       (downloadLoop url outputDir (rc + 1) rest).2.2 + 1) := by
  simp only [downloadLoop, ha]
  rw [if_neg (by omega)]

theorem downloadLoop_fatal_step (url outputDir : String) (a : AttemptInput)
    (rest : List AttemptInput) (rc : Nat) (e : String)
    (ha : (attempt_download url outputDir a).2 = .error e)
    (hrc : rc + 1 ≥ 3) :
    downloadLoop url outputDir rc (a :: rest) =
      ((attempt_download url outputDir a).1 ++
        [DownloadEvent.error ("Failed after 3 retries: " ++ e)],
       .error ("Failed after 3 retries: " ++ e), 1) := by
  simp only [downloadLoop, ha]
  rw [if_pos hrc]

theorem byteTakeList_size (l : List Char) :
    ∀ (n : Nat) (out : List Char), byteTakeList n l = some out →
      (out.map Char.utf8Size).sum = n := by
  induction l with
  | nil =>
    intro n out h
    cases n with
    | zero =>
      simp only [byteTakeList, Option.some.injEq] at h
      rw [← h]
      rfl
    | succ m => simp [byteTakeList] at h
  | cons c cs ih =>
    intro n out h
    cases n with
    | zero =>
      simp only [byteTakeList, Option.some.injEq] at h
      rw [← h]
      rfl
    | succ m =>
      simp only [byteTakeList] at h
      by_cases hsz : c.utf8Size ≤ m + 1
      · rw [if_pos hsz] at h
        cases hrec : byteTakeList (m + 1 - c.utf8Size) cs with
        | none => rw [hrec] at h; simp at h
        | some o =>
          rw [hrec] at h
          simp only [Option.map_some', Option.some.injEq] at h
          have hsum := ih (m + 1 - c.utf8Size) o hrec
          rw [← h]
          simp only [List.map_cons, List.sum_cons, hsum]
          omega
      · rw [if_neg hsz] at h
        simp at h

theorem clipCell_byteLen (w : Nat) (s t : String)
    (h : clipCell w s = some t) : byteLen t ≤ w := by
  unfold clipCell at h
  by_cases hl : byteLen s > w
  · rw [if_pos hl] at h
    unfold byteTake at h
    cases ht : byteTakeList w s.data with
    | none => rw [ht] at h; simp at h
    | some out =>
      rw [ht] at h
      simp only [Option.map_some', Option.some.injEq] at h
      have hsz := byteTakeList_size s.data w out ht
      rw [← h]
      simp [byteLen, hsz]
  · rw [if_neg hl] at h
    simp only [Option.some.injEq] at h
    rw [← h]
    omega

theorem capWidths_le (ws : List Nat) : ∀ w ∈ capWidths ws, w ≤ 30 := by
  intro w hw
  simp only [capWidths, List.mem_map] at hw
  obtain ⟨v, _, hv⟩ := hw
  by_cases h : v > 30
  · rw [if_pos h] at hv; omega
  · rw [if_neg h] at hv; omega

theorem processRows_length (rows : List (List String)) :
    ∀ (cc : Nat) (w : List Nat) (c : Nat) (buf : List (List String))
      (wf : List Nat) (tr : Bool),
      processRows rows cc w c = some (buf, wf, tr) →
      buf.length ≤ 51 - c := by
  induction rows with
  | nil =>
    intro cc w c buf wf tr h
    simp only [processRows, Option.some.injEq, Prod.mk.injEq] at h
    obtain ⟨h1, -, -⟩ := h
    simp [← h1]
  | cons r rs ih =>
    intro cc w c buf wf tr h
    simp only [processRows] at h
    by_cases hc : c > 50
    · rw [if_pos hc] at h
      simp only [Option.some.injEq, Prod.mk.injEq] at h
      obtain ⟨h1, -, -⟩ := h
      simp [← h1]
    · rw [if_neg hc] at h
      split at h
      · exact absurd h (by simp)
      · next vals hvals =>
        split at h
        · exact absurd h (by simp)
        · next buf1 wf1 tr1 hrec =>
          simp only [Option.some.injEq, Prod.mk.injEq] at h
          obtain ⟨h1, -, -⟩ := h
          have hlen := ih cc _ (c + 1) buf1 wf1 tr1 hrec
          rw [← h1]
          simp only [List.length_cons]
          omega

theorem processRows_truncated (rows : List (List String)) :
    ∀ (cc : Nat) (w : List Nat) (c : Nat) (buf : List (List String))
      (wf : List Nat) (tr : Bool), c ≤ 51 →
      processRows rows cc w c = some (buf, wf, tr) →
      (tr = true ↔ 51 < rows.length + c) := by
  induction rows with
  | nil =>
    intro cc w c buf wf tr hc h
    simp only [processRows, Option.some.injEq, Prod.mk.injEq] at h
    obtain ⟨-, -, h3⟩ := h
    rw [← h3]
    simp only [List.length_nil]
    constructor
    · intro hfalse
      exact absurd hfalse (by simp)
    · intro habs
      omega
  | cons r rs ih =>
    intro cc w c buf wf tr hc h
    simp only [processRows] at h
    by_cases hbig : c > 50
    · rw [if_pos hbig] at h
      simp only [Option.some.injEq, Prod.mk.injEq] at h
      obtain ⟨-, -, h3⟩ := h
      rw [← h3]
      simp only [List.length_cons, true_iff]
      omega
    · rw [if_neg hbig] at h
      split at h
      · exact absurd h (by simp)
      · next vals hvals =>
        split at h
        · exact absurd h (by simp)
        · next buf1 wf1 tr1 hrec =>
          simp only [Option.some.injEq, Prod.mk.injEq] at h
          obtain ⟨-, -, h3⟩ := h
          have hiff := ih cc _ (c + 1) buf1 wf1 tr1 (by omega) hrec
          rw [← h3, hiff]
          simp only [List.length_cons]
          omega

theorem rustIsWhitespace_space : rustIsWhitespace ' ' = true := by decide

theorem trimRightList_concat_space (l : List Char) :
    trimRightList (l ++ [' ']) = trimRightList l := by
  unfold trimRightList
  rw [List.reverse_append]
  simp only [List.reverse_cons, List.reverse_nil, List.nil_append,
    List.cons_append, List.dropWhile_cons, rustIsWhitespace_space, if_true]

theorem rustTrimList_pad (l : List Char) :
    rustTrimList (' ' :: (l ++ [' '])) = rustTrimList l := by
  unfold rustTrimList
  rw [List.dropWhile_cons]
  simp only [rustIsWhitespace_space, if_true]
  rw [List.dropWhile_append]
  by_cases h : (l.dropWhile rustIsWhitespace).isEmpty = true
  · rw [if_pos h]
    have h1 : List.dropWhile rustIsWhitespace [' '] = ([] : List Char) := by
      decide
    have h2 : l.dropWhile rustIsWhitespace = [] := List.isEmpty_iff.mp h
    rw [h1, h2]
  · rw [if_neg h]
    exact trimRightList_concat_space _

theorem rustTrim_pad (s : String) : rustTrim (" " ++ s ++ " ") = rustTrim s := by
  unfold rustTrim
  have hd : (" " ++ s ++ " ").data = ' ' :: (s.data ++ [' ']) := by
    simp [String.data_append]
  rw [hd]
  exact congrArg String.mk (rustTrimList_pad s.data)

theorem rustUpperChar_eq_of (c : Char)
    (h : 97 ≤ c.toNat ∧ c.toNat ≤ 122) :
    rustUpperChar c = Char.ofNat (c.toNat - 32) := by
  unfold rustUpperChar
  rw [if_pos (by simpa using h)]

theorem toNat_ofNat_valid (n : Nat) (h : n < 0xD800) :
    (Char.ofNat n).toNat = n := by
  have hv : Nat.isValidChar n := Or.inl h
  simp [Char.ofNat, hv, Char.toNat, Char.ofNatAux]
  rfl

theorem toNat_ofNat_sub32 (c : Char) (h : 97 ≤ c.toNat ∧ c.toNat ≤ 122) :
    (Char.ofNat (c.toNat - 32)).toNat = c.toNat - 32 :=
  toNat_ofNat_valid (c.toNat - 32) (by omega)

theorem rustIsWhitespace_false_of_alpha (c : Char) (h1 : 65 ≤ c.toNat)
    (h2 : c.toNat ≤ 122) : rustIsWhitespace c = false := by
  unfold rustIsWhitespace
  simp only [Bool.or_eq_false_iff, Bool.and_eq_false_iff,
    decide_eq_false_iff_not]
  omega

theorem rustIsWhitespace_upperChar (c : Char) :
    rustIsWhitespace (rustUpperChar c) = rustIsWhitespace c := by
  by_cases h : 97 ≤ c.toNat ∧ c.toNat ≤ 122
  · rw [rustUpperChar_eq_of c h]
    have ht := toNat_ofNat_sub32 c h
    rw [rustIsWhitespace_false_of_alpha _ (by omega) (by omega)]
    rw [rustIsWhitespace_false_of_alpha c (by omega) (by omega)]
  · unfold rustUpperChar
    rw [if_neg (by simpa using h)]

theorem rustLowerChar_upperChar (c : Char) :
    rustLowerChar (rustUpperChar c) = rustLowerChar c := by
  by_cases h : 97 ≤ c.toNat ∧ c.toNat ≤ 122
  · have ht := toNat_ofNat_sub32 c h
    rw [rustUpperChar_eq_of c h]
    unfold rustLowerChar
    have hc1 : (65 ≤ (Char.ofNat (c.toNat - 32)).toNat &&
        (Char.ofNat (c.toNat - 32)).toNat ≤ 90) = true := by
      rw [ht]
      simp only [Bool.and_eq_true, decide_eq_true_eq]
      omega
    have hc2 : ¬((65 ≤ c.toNat && c.toNat ≤ 90) = true) := by
      simp only [Bool.and_eq_true, decide_eq_true_eq]
      omega
    rw [if_pos hc1, if_neg hc2, ht]
    have h32 : c.toNat - 32 + 32 = c.toNat := by omega
    rw [h32, Char.ofNat_toNat]
  · have hup : rustUpperChar c = c := by
      unfold rustUpperChar
      rw [if_neg (by simpa using h)]
    rw [hup]

theorem rustTrimList_map_upperChar (l : List Char) :
    rustTrimList (l.map rustUpperChar) =
      (rustTrimList l).map rustUpperChar := by
  have hp : (rustIsWhitespace ∘ rustUpperChar) = rustIsWhitespace :=
    funext fun c => rustIsWhitespace_upperChar c
  unfold rustTrimList trimRightList
  rw [List.dropWhile_map, hp, ← List.map_reverse, List.dropWhile_map, hp,
    List.map_reverse]

theorem rustTrim_upper (s : String) :
    rustTrim (rustUpper s) = rustUpper (rustTrim s) :=
  congrArg String.mk (rustTrimList_map_upperChar s.data)

theorem rustLower_upper (s : String) :
    rustLower (rustUpper s) = rustLower s := by
  have hp : (rustLowerChar ∘ rustUpperChar) = rustLowerChar :=
    funext fun c => rustLowerChar_upperChar c
  unfold rustLower rustUpper
  refine congrArg String.mk ?_
  rw [List.map_map, hp]

theorem normalized_upper (s : String) :
    rustLower (rustTrim (rustUpper s)) = rustLower (rustTrim s) := by
  rw [rustTrim_upper, rustLower_upper]

theorem rustLower_eq_empty_iff (s : String) :
    rustLower s = "" ↔ s = "" := by
  constructor
  · intro h
    have hd : (s.data.map rustLowerChar) = [] := by
      have := String.ext_iff.mp h
      simpa [rustLower] using this
    exact String.ext (by simpa using hd)
  · intro h
    rw [h]
    rfl

/-! ## Claim theorems -/

/-- C2: while the session state has `is_downloading` true, a download-start
intent (Enter in the Download tab) is a no-op — the state is returned
unchanged and no background fetch task is spawned; and conversely a fetch
task is only ever spawned when `is_downloading` is false. -/
theorem coordinator_ignores_start_while_downloading (app : AppState) :
    (app.isDownloading = true → handleEnterDownload app = (app, false)) ∧
    ((handleEnterDownload app).2 = true → app.isDownloading = false) := by
  constructor
  · intro h
    simp [handleEnterDownload, h]
  · intro h
    cases happ : app.isDownloading
    · rfl
    · simp [handleEnterDownload, happ] at h

/-- Witness for C2: a concrete session with a download in flight is left
untouched by a second start intent. -/
theorem coordinator_ignores_start_while_downloading_witness :
    handleEnterDownload
      { inputContinent := "Asia", inputCountry := "Indonesia",
        inputRegion := "", downloadFormat := .pbf, downloadProgress := 12.5,
        isDownloading := true, lastDownloadedPath := none,
        downloadStatusText := "Downloading...", sqlInput := "",
        sqlOutput := "Ready to query.", logs := ["URL: x"] } =
      ({ inputContinent := "Asia", inputCountry := "Indonesia",
         inputRegion := "", downloadFormat := .pbf, downloadProgress := 12.5,
         isDownloading := true, lastDownloadedPath := none,
         downloadStatusText := "Downloading...", sqlInput := "",
         sqlOutput := "Ready to query.", logs := ["URL: x"] }, false) :=
  (coordinator_ignores_start_while_downloading _).1 rfl

/-- C3: every run of the spawned import task emits exactly one terminal
event on the channel — `ImportFinished("Import successful.")` when
`import_data` succeeds and `ImportFailed(e)` when it fails — regardless of
the (discarded) result of `record_download`. -/
theorem import_task_exactly_one_terminal_event
    (recordResult importResult : Except String Unit) :
    ((backgroundImport recordResult importResult).filter
        isTerminalImportEvent =
      match importResult with
      | .ok _ => [DownloadEvent.importFinished "Import successful."]
      | .error e => [DownloadEvent.importFailed e]) ∧
    ((backgroundImport recordResult importResult).filter
        isTerminalImportEvent).length = 1 := by
  cases importResult <;>
    simp [backgroundImport, isTerminalImportEvent, List.filter]

/-- C8: with the store lock unavailable (`try_lock` fails), the coordinator
never runs a query: on `ImportFinished` it skips the preview and appends
the "DB busy, skip preview." log entry, and on a user execute-query intent
it reports "DB busy, cannot execute query." in the output instead of
blocking. -/
theorem coordinator_try_lock_no_block (app : AppState) (msg : String)
    (queryResult : Except String String) :
    (handleImportFinished app msg false queryResult).2 = false ∧
    (handleImportFinished app msg false queryResult).1.logs.getLast? =
      some "DB busy, skip preview." ∧
    (handleExecuteQuery app false queryResult).2 = false ∧
    (handleExecuteQuery app false queryResult).1.sqlOutput =
      "DB busy, cannot execute query." := by
  refine ⟨rfl, ?_, rfl, rfl⟩
  simp [handleImportFinished, add_log_getLast]

/-- C1 as stated is false: when a failed attempt's failure mode is a size
mismatch, `attempt_download` itself sends an `Error` event (line 143 of
src/network.rs) before the retry loop sends its own `Retry k/3` `Error`
event.  Here the first attempt fails (size mismatch: 5 of 10 bytes) and
the second succeeds, so the claim demands exactly one `Error` then one
`Complete`; the code emits two `Error` events then `Complete`. -/
theorem download_file_mismatch_extra_error_cx :
    resultIsError (attempt_download "http://h/u" "d"
      (AttemptInput.body (some 10) [5] none)).2 = true ∧
    resultIsError (attempt_download "http://h/u" "d"
      (AttemptInput.body (some 5) [5] none)).2 = false ∧
    termTrace (download_file "http://h/u" "d"
      [AttemptInput.body (some 10) [5] none,
       AttemptInput.body (some 5) [5] none]).1 ≠
      List.replicate 1 EvKind.err ++ [EvKind.comp] ∧
    termTrace (download_file "http://h/u" "d"
      [AttemptInput.body (some 10) [5] none,
       AttemptInput.body (some 5) [5] none]).1 =
      [EvKind.err, EvKind.err, EvKind.comp] := by
  refine ⟨by decide, by decide, by decide, by decide⟩

/-- C1 (amended): restrict the failing attempts to failure modes that do
not themselves send an `Error` event (network error, non-success status,
file error, stream error — everything except a detected size mismatch,
which sends one extra `Error` inside the attempt).  Then: (1) if the first
`k < 3` attempts fail this way and the next succeeds, the fetch emits
exactly `k` `Error` events followed by exactly one `Complete`, makes
`k + 1` attempts, and returns success; (2) if 3 attempts fail this way,
the fetch emits exactly 3 `Error` events and no `Complete`, makes 3
attempts, and returns a fatal error. -/
theorem download_file_retry_contract :
    (∀ (url outputDir : String) (fails : List AttemptInput)
        (s : AttemptInput) (rest : List AttemptInput) (p : String),
      fails.length < 3 →
      (∀ a ∈ fails, termTrace (attempt_download url outputDir a).1 = [] ∧
        resultIsError (attempt_download url outputDir a).2 = true) →
      (attempt_download url outputDir s).2 = .ok p →
      termTrace (download_file url outputDir (fails ++ s :: rest)).1 =
          List.replicate fails.length EvKind.err ++ [EvKind.comp] ∧
        (download_file url outputDir (fails ++ s :: rest)).2.2 =
          fails.length + 1 ∧
        resultIsError
          (download_file url outputDir (fails ++ s :: rest)).2.1 = false) ∧
    (∀ (url outputDir : String) (f1 f2 f3 : AttemptInput)
        (rest : List AttemptInput),
      (∀ a ∈ [f1, f2, f3],
        termTrace (attempt_download url outputDir a).1 = [] ∧
        resultIsError (attempt_download url outputDir a).2 = true) →
      termTrace (download_file url outputDir (f1 :: f2 :: f3 :: rest)).1 =
          List.replicate 3 EvKind.err ∧
        (download_file url outputDir (f1 :: f2 :: f3 :: rest)).2.2 = 3 ∧
        resultIsError
          (download_file url outputDir (f1 :: f2 :: f3 :: rest)).2.1 =
          true) := by
  constructor
  · intro url outputDir fails s rest p hk hfail hs
    match fails with
    | [] =>
      simp only [download_file, List.nil_append, List.length_nil]
      rw [downloadLoop_ok_step url outputDir s rest 0 p hs]
      exact ⟨by simp [attempt_ok_termTrace hs], rfl, rfl⟩
    | [a] =>
      obtain ⟨e1, he1⟩ :=
        (resultIsError_iff _).mp (hfail a (by simp)).2
      have ht1 := (hfail a (by simp)).1
      simp only [download_file, List.cons_append, List.nil_append,
        List.length_cons, List.length_nil]
      rw [downloadLoop_error_step url outputDir a (s :: rest) 0 e1 he1
        (by omega)]
      rw [downloadLoop_ok_step url outputDir s rest 1 p hs]
      refine ⟨?_, rfl, rfl⟩
      rw [termTrace_append, termTrace_append, ht1, attempt_ok_termTrace hs]
      rfl
    | [a, b] =>
      obtain ⟨e1, he1⟩ :=
        (resultIsError_iff _).mp (hfail a (by simp)).2
      have ht1 := (hfail a (by simp)).1
      obtain ⟨e2, he2⟩ :=
        (resultIsError_iff _).mp (hfail b (by simp)).2
      have ht2 := (hfail b (by simp)).1
      simp only [download_file, List.cons_append, List.nil_append,
        List.length_cons, List.length_nil]
      rw [downloadLoop_error_step url outputDir a (b :: s :: rest) 0 e1 he1
        (by omega)]
      rw [downloadLoop_error_step url outputDir b (s :: rest) 1 e2 he2
        (by omega)]
      rw [downloadLoop_ok_step url outputDir s rest 2 p hs]
      refine ⟨?_, rfl, rfl⟩
      rw [termTrace_append, termTrace_append, ht1]
      rw [termTrace_append, termTrace_append, ht2, attempt_ok_termTrace hs]
      rfl
    | a :: b :: c :: t =>
      simp at hk
      omega
  · intro url outputDir f1 f2 f3 rest hfail
    obtain ⟨e1, he1⟩ := (resultIsError_iff _).mp (hfail f1 (by simp)).2
    have ht1 := (hfail f1 (by simp)).1
    obtain ⟨e2, he2⟩ := (resultIsError_iff _).mp (hfail f2 (by simp)).2
    have ht2 := (hfail f2 (by simp)).1
    obtain ⟨e3, he3⟩ := (resultIsError_iff _).mp (hfail f3 (by simp)).2
    have ht3 := (hfail f3 (by simp)).1
    simp only [download_file]
    rw [downloadLoop_error_step url outputDir f1 (f2 :: f3 :: rest) 0 e1 he1
      (by omega)]
    rw [downloadLoop_error_step url outputDir f2 (f3 :: rest) 1 e2 he2
      (by omega)]
    rw [downloadLoop_fatal_step url outputDir f3 rest 2 e3 he3 (by omega)]
    refine ⟨?_, rfl, rfl⟩
    rw [termTrace_append, termTrace_append, ht1]
    rw [termTrace_append, termTrace_append, ht2]
    rw [termTrace_append, ht3]
    rfl

/-- Witness for C1 (amended): one network failure then a successful
attempt — one `Error` then `Complete` in two attempts; and three network
failures — three `Error` events, no `Complete`, fatal result. -/
theorem download_file_retry_contract_witness :
    (termTrace (download_file "http://h/u" "d"
        [AttemptInput.netError "boom",
         AttemptInput.body (some 3) [3] none]).1 =
      List.replicate 1 EvKind.err ++ [EvKind.comp] ∧
      (download_file "http://h/u" "d"
        [AttemptInput.netError "boom",
         AttemptInput.body (some 3) [3] none]).2.2 = 1 + 1 ∧
      resultIsError (download_file "http://h/u" "d"
        [AttemptInput.netError "boom",
         AttemptInput.body (some 3) [3] none]).2.1 = false) ∧
    (termTrace (download_file "http://h/u" "d"
        [AttemptInput.netError "a", AttemptInput.httpError "503",
         AttemptInput.netError "c"]).1 = List.replicate 3 EvKind.err ∧
      (download_file "http://h/u" "d"
        [AttemptInput.netError "a", AttemptInput.httpError "503",
         AttemptInput.netError "c"]).2.2 = 3 ∧
      resultIsError (download_file "http://h/u" "d"
        [AttemptInput.netError "a", AttemptInput.httpError "503",
         AttemptInput.netError "c"]).2.1 = true) :=
  ⟨download_file_retry_contract.1 "http://h/u" "d"
      [AttemptInput.netError "boom"] (AttemptInput.body (some 3) [3] none)
      [] "d/u" (by decide) (by decide) rfl,
   download_file_retry_contract.2 "http://h/u" "d"
      (AttemptInput.netError "a") (AttemptInput.httpError "503")
      (AttemptInput.netError "c") [] (by decide)⟩

/-- C6 as stated is false: `attempt_download` computes
`total_size = response.content_length().unwrap_or(0)` and gates progress
on `total_size > 0`, so a response that declares a content length of zero
while streaming one chunk gets no `Progress` event even though the server
declared a content length. -/
theorem progress_zero_content_length_cx :
    (some 0 : Option Nat) ≠ none ∧
    countProgress (attempt_download "http://h/u" "d"
      (AttemptInput.body (some 0) [5] none)).1 = 0 ∧
    ([5] : List Nat).length = 1 := by
  refine ⟨by decide, by decide, rfl⟩

/-- C6 (amended): within one attempt, a `Progress` event is emitted after
every chunk written exactly when the server declared a *positive* content
length; with no declared content length — or a declared length of zero,
which the code conflates with "unknown" — no `Progress` event is emitted
and no percentage is fabricated. -/
theorem progress_events_iff_positive_content_length
    (url outputDir : String) (chunks : List Nat) (streamErr : Option String) :
    countProgress (attempt_download url outputDir
        (AttemptInput.body none chunks streamErr)).1 = 0 ∧
    (∀ n : Nat, 0 < n →
      countProgress (attempt_download url outputDir
        (AttemptInput.body (some n) chunks streamErr)).1 = chunks.length) ∧
    countProgress (attempt_download url outputDir
        (AttemptInput.body (some 0) chunks streamErr)).1 = 0 := by
  have hz : countProgress (streamLoop 0 0 chunks).1 = 0 := by
    simpa using streamLoop_countProgress 0 chunks 0
  refine ⟨?_, ?_, ?_⟩
  · cases streamErr with
    | some m => simpa [attempt_download, Option.getD] using hz
    | none =>
      simp only [attempt_download, Option.getD]
      split <;>
        rw [countProgress_append, hz] <;>
        simp [countProgress_error, countProgress_complete]
  · intro n hn
    have hp : countProgress (streamLoop n 0 chunks).1 = chunks.length := by
      have := streamLoop_countProgress n chunks 0
      rwa [if_pos hn] at this
    cases streamErr with
    | some m => simpa [attempt_download, Option.getD] using hp
    | none =>
      simp only [attempt_download, Option.getD]
      split <;>
        rw [countProgress_append, hp] <;>
        simp [countProgress_error, countProgress_complete]
  · cases streamErr with
    | some m => simpa [attempt_download, Option.getD] using hz
    | none =>
      simp only [attempt_download, Option.getD]
      split <;>
        rw [countProgress_append, hz] <;>
        simp [countProgress_error, countProgress_complete]

/-- Witness for C6 (amended): with a declared length of 10 and two chunks,
two `Progress` events are emitted; with no declared length, none are. -/
theorem progress_events_iff_positive_content_length_witness :
    countProgress (attempt_download "http://h/f.pbf" "dir"
        (AttemptInput.body none [4, 6] none)).1 = 0 ∧
    countProgress (attempt_download "http://h/f.pbf" "dir"
        (AttemptInput.body (some 10) [4, 6] none)).1 = [4, 6].length :=
  ⟨(progress_events_iff_positive_content_length "http://h/f.pbf" "dir"
      [4, 6] none).1,
   (progress_events_iff_positive_content_length "http://h/f.pbf" "dir"
      [4, 6] none).2.1 10 (by decide)⟩

/-- C7 as stated is false: when the server declares a content length of
zero and the stream delivers 3 bytes, the bytes written (3) differ from
the declared length (0), yet the attempt succeeds and emits `Complete`,
because the mismatch check requires `total_size > 0`. -/
theorem size_mismatch_zero_length_cx :
    (some 0 : Option Nat) ≠ none ∧
    (3 : Nat) ≠ 0 ∧
    resultIsError (attempt_download "http://h/u" "d"
      (AttemptInput.body (some 0) [3] none)).2 = false ∧
    countComplete (attempt_download "http://h/u" "d"
      (AttemptInput.body (some 0) [3] none)).1 = 1 := by
  refine ⟨by decide, by decide, by decide, by decide⟩

/-- C7 (amended): for every attempt with a success status and a declared
*positive* content length, if the bytes written when the body ends differ
from the declared length, the attempt returns an error and emits no
`Complete` event. -/
theorem size_mismatch_attempt_fails (url outputDir : String) (n : Nat)
    (chunks : List Nat) (hn : 0 < n) (hm : chunks.sum ≠ n) :
    resultIsError (attempt_download url outputDir
        (AttemptInput.body (some n) chunks none)).2 = true ∧
    countComplete (attempt_download url outputDir
        (AttemptInput.body (some n) chunks none)).1 = 0 := by
  have hd := streamLoop_downloaded n chunks 0
  have hcond : (n > 0 && (streamLoop n 0 chunks).2 != n) = true := by
    simp [hd, hn, bne_iff_ne]
    omega
  constructor
  · simp only [attempt_download, Option.getD, hcond, if_pos, resultIsError]
  · simp only [attempt_download, Option.getD, hcond, if_pos]
    rw [countComplete_append, streamLoop_countComplete]
    simp [countComplete]

/-- Witness for C7 (amended): declared length 10 but only 5 bytes arrive —
the attempt fails and no `Complete` is emitted. -/
theorem size_mismatch_attempt_fails_witness :
    resultIsError (attempt_download "http://h/u" "d"
        (AttemptInput.body (some 10) [5] none)).2 = true ∧
    countComplete (attempt_download "http://h/u" "d"
        (AttemptInput.body (some 10) [5] none)).1 = 0 :=
  size_mismatch_attempt_fails "http://h/u" "d" 10 [5] (by decide) (by decide)

/-- C4 as stated is false: with a trimmed-empty country and a non-empty
region, `construct_url` takes the region branch and interpolates the empty
country between two slashes, producing a literal empty path segment. -/
theorem construct_url_empty_segment_cx :
    rustTrim "" = "" ∧
    rustTrim "kalimantan" ≠ "" ∧
    hasEmptyPathSegment
      (construct_url "asia" "" "kalimantan" DownloadFormat.pbf) ∧
    construct_url "asia" "" "kalimantan" DownloadFormat.pbf =
      "https://download.geofabrik.de/asia//kalimantan-latest.osm.pbf" := by
  refine ⟨by decide, by decide, ?_, by decide⟩
  unfold hasEmptyPathSegment
  decide

/-- C4 (amended): empty components are only treated as "not specified"
through the region-then-country cascade; whenever the trimmed country is
empty while the trimmed region is non-empty, the resolved URL always
contains a literal empty path segment (the country slot between two
slashes). -/
theorem construct_url_empty_country_segment (c co r : String)
    (f : DownloadFormat) (hco : rustTrim co = "")
    (hr : rustTrim r ≠ "") :
    hasEmptyPathSegment (construct_url c co r f) := by
  have htc : rustLower (rustTrim co) = "" := by
    rw [hco]
    rfl
  have htr : ¬((rustLower (rustTrim r)).isEmpty = true) := by
    rw [String.isEmpty_iff]
    intro hh
    exact hr ((rustLower_eq_empty_iff _).mp hh)
  simp only [construct_url]
  rw [htc, if_neg htr]
  unfold hasEmptyPathSegment
  have hd : ("https://download.geofabrik.de" ++ "/" ++
        rustLower (rustTrim c) ++ "/" ++ "" ++ "/" ++
        rustLower (rustTrim r) ++ f.suffix).data =
      ("https://download.geofabrik.de" : String).data ++
        ('/' :: ((rustLower (rustTrim c)).data ++
          '/' :: '/' :: ((rustLower (rustTrim r)).data ++
            f.suffix.data))) := by
    have hslash : ("/" : String).data = ['/'] := rfl
    have hempty : ("" : String).data = ([] : List Char) := rfl
    simp [String.data_append, hslash, hempty]
  rw [hd]
  rw [List.drop_append_of_le_length (by decide)]
  refine ⟨("https://download.geofabrik.de" : String).data.drop 8 ++
    '/' :: (rustLower (rustTrim c)).data,
    (rustLower (rustTrim r)).data ++ f.suffix.data, ?_⟩
  simp

/-- Witness for C4 (amended) at a concrete input with empty country and
non-empty region. -/
theorem construct_url_empty_country_segment_witness :
    hasEmptyPathSegment
      (construct_url "europe" "" "bavaria" DownloadFormat.pbf) :=
  construct_url_empty_country_segment "europe" "" "bavaria"
    DownloadFormat.pbf (by decide) (by decide)

/-- C5: `construct_url` returns the spec's canonical URLs on the three
reference inputs, and surrounding whitespace and letter case in the
components have no observable effect: padding every component with spaces,
or uppercasing every component, yields the same URL. -/
theorem construct_url_reference_and_normalization :
    construct_url "Asia" "Indonesia" "Kalimantan" DownloadFormat.pbf =
      "https://download.geofabrik.de/asia/indonesia/kalimantan-latest.osm.pbf" ∧
    construct_url "Europe" "Germany" "" DownloadFormat.shapefile =
      "https://download.geofabrik.de/europe/germany-latest-free.shp.zip" ∧
    construct_url "Africa" "" "" DownloadFormat.pbf =
      "https://download.geofabrik.de/africa-latest.osm.pbf" ∧
    construct_url " Asia " " Indonesia " " Kalimantan " DownloadFormat.pbf =
      construct_url "Asia" "Indonesia" "Kalimantan" DownloadFormat.pbf ∧
    (∀ (c co r : String) (f : DownloadFormat),
      construct_url (" " ++ c ++ " ") (" " ++ co ++ " ") (" " ++ r ++ " ")
        f = construct_url c co r f) ∧
    (∀ (c co r : String) (f : DownloadFormat),
      construct_url (rustUpper c) (rustUpper co) (rustUpper r) f =
        construct_url c co r f) := by
  refine ⟨by decide, by decide, by decide, by decide, ?_, ?_⟩
  · intro c co r f
    simp only [construct_url]
    rw [rustTrim_pad, rustTrim_pad, rustTrim_pad]
  · intro c co r f
    simp only [construct_url]
    rw [normalized_upper, normalized_upper, normalized_upper]

/-- C9 as stated is false: the row loop in `Database::query` breaks only
when `count > 50`, so a 51-row result set is buffered (and rendered) in
full — 51 data rows, more than the claimed cap of 50 — and the truncated
marker is not produced even though more than 50 rows exist. -/
theorem query_row_cap_cx :
    processRows (List.replicate 51 ["x"]) 1 [1] 0 =
      some (List.replicate 51 ["x"], [1], false) ∧
    (List.replicate 51 (["x"] : List String)).length = 51 ∧
    ¬((51 : Nat) ≤ 50) := by
  refine ⟨?_, by decide, by decide⟩
  set_option maxRecDepth 10000 in decide

/-- C9 (amended): `Database::query` buffers (and renders) at most 51 data
rows — not 50; the off-by-one comes from breaking only when `count > 50` —
and the explicit truncated marker appears exactly when the result set has
more than 51 rows; every rendered cell is clipped to the 30-byte column
width cap. -/
theorem query_row_cap_and_cell_clip (rows : List (List String))
    (colCount : Nat) (w0 : List Nat) (buf : List (List String))
    (wf : List Nat) (tr : Bool)
    (h : processRows rows colCount w0 0 = some (buf, wf, tr)) :
    buf.length ≤ 51 ∧
    (tr = true ↔ 51 < rows.length) ∧
    (∀ w ∈ capWidths wf, w ≤ 30) ∧
    (∀ (w : Nat) (s t : String), w ≤ 30 → clipCell w s = some t →
      byteLen t ≤ 30) := by
  refine ⟨?_, ?_, capWidths_le wf, ?_⟩
  · have := processRows_length rows colCount w0 0 buf wf tr h
    omega
  · have := processRows_truncated rows colCount w0 0 buf wf tr
      (by omega) h
    simpa using this
  · intro w s t hw hc
    have := clipCell_byteLen w s t hc
    omega

/-- Witness for C9 (amended), at a concrete two-row result set. -/
theorem query_row_cap_and_cell_clip_witness :
    ([["ab"], ["c"]] : List (List String)).length ≤ 51 ∧
    ((false = true) ↔ 51 < ([["ab"], ["c"]] : List (List String)).length) ∧
    (∀ w ∈ capWidths [2], w ≤ 30) ∧
    (∀ (w : Nat) (s t : String), w ≤ 30 → clipCell w s = some t →
      byteLen t ≤ 30) :=
  query_row_cap_and_cell_clip [["ab"], ["c"]] 1 [1] [["ab"], ["c"]] [2]
    false (by decide)

/-- C10 (code bug): formatting a row value is not total.  The 80-byte
truncation `&value[..80]` in `Database::query` panics when byte 80 is not
a UTF-8 character boundary; modelled as `none` here.  The failing value is
79 ASCII characters followed by a two-byte character. -/
theorem query_truncation_panics :
    truncate80 (String.mk (List.replicate 79 'a') ++ "é") = none ∧
    byteLen (String.mk (List.replicate 79 'a') ++ "é") = 81 := by
  constructor <;> decide

end OsmDownloader
